import Mathlib

/-!
Shallow embedding of the promotions persistence layer of React-Mobile-Loja.

The promotion service (services/promocaoService.ts) is settled against the
web storage adapter (src/services/database/web.ts), which is the database
implementation selected on the web platform by services/database/native.ts.
The adapter keeps the two tables as lists inside one JSON document and
dispatches on substrings of the incoming SQL text.

Conventions of the embedding:
- wall-clock dates (new Date()) are threaded as explicit ISO date-string
  parameters; ISO date strings compare lexicographically, which agrees with
  chronological order;
- SQL parameters are JS values, modelled by `Val`; `Val.null` stands for
  both JS null and undefined;
- rows are typed as in the schema; undefined written into a String column
  is stored through `Val.asStr` as the empty string, and into a nullable
  column through `Val.asOptStr` as `none`;
- the adapter catches all exceptions internally, so every operation is a
  total function.
-/

set_option maxRecDepth 100000

namespace Loja

/-- JS value passed as a SQL parameter or read off a fetched row. -/
inductive Val where
  | null : Val
  | str : String → Val
  | int : Int → Val
deriving DecidableEq

/-- Conversion applied when a parameter is stored into a TEXT column. -/
def Val.asStr : Val → String
  | .str t => t
  | _ => ""

/-- Conversion applied when a parameter is stored into an id column. -/
def Val.asInt : Val → Int
  | .int n => n
  | _ => 0

/-- Conversion applied when a parameter is stored into a nullable TEXT column. -/
def Val.asOptStr : Val → Option String
  | .str t => some t
  | _ => none

/-- JS strict equality between a parameter and an integer field. -/
def Val.eqInt : Val → Int → Bool
  | .int m, n => m == n
  | _, _ => false

/-- Lexicographic comparison of character lists, mirroring the JS string
order on code units. -/
def lexLt : List Char → List Char → Bool
  | _, [] => false
  | [], _ :: _ => true
  | a :: as, b :: bs => if a < b then true else if b < a then false else lexLt as bs

/-- JS string comparison `a < b`. -/
def strLtB (a b : String) : Bool := lexLt a.data b.data

/-- JS comparison `field < param` between a string field and a parameter. -/
def strLt (a : String) : Val → Bool
  | .str b => strLtB a b
  | _ => false

/-- Row of the `promocoes` table, keys as stored by the web adapter. -/
structure PromocaoRow where
  id : Int
  produto_id : String
  produto_nome : String
  desconto : Int
  data_inicio : String
  data_fim : String
  data_criacao : String
  status : String
  data_expiracao : Option String
deriving DecidableEq

/-- Row of the `historico_promocoes` table, keys as stored by the web adapter. -/
structure HistoricoRow where
  id : Int
  promocao_id : Int
  produto_nome : String
  desconto : Int
  data_inicio : String
  data_fim : String
  acao : String
  data_acao : String
deriving DecidableEq

/-- The JSON document held under the storage key `promocoes_database`. -/
structure DBState where
  promocoes : List PromocaoRow
  historico_promocoes : List HistoricoRow
deriving DecidableEq

/-- The service reads the camelCase property `produtoNome` off a fetched row.
The web adapter returns raw rows keyed snake_case (`produto_nome`), so on the
web platform this property access yields undefined. -/
def PromocaoRow.produtoNome (_ : PromocaoRow) : Val := Val.null

/-- CamelCase read `dataInicio` off a raw snake_case row: undefined on web. -/
def PromocaoRow.dataInicio (_ : PromocaoRow) : Val := Val.null

/-- CamelCase read `dataFim` off a raw snake_case row: undefined on web. -/
def PromocaoRow.dataFim (_ : PromocaoRow) : Val := Val.null

/-- Result row of the web adapter: a promotion row, a history row, or a
count record (`SELECT COUNT(*) as count`). -/
inductive Row where
  | prom : PromocaoRow → Row
  | hist : HistoricoRow → Row
  | count : Nat → Row
deriving DecidableEq

/-- The cast the service applies when it reads a promotion query result. -/
def Row.asProm : Row → Option PromocaoRow
  | .prom p => some p
  | _ => none

/-- JS `String.prototype.includes`: substring test on the character list. -/
def hasInfix : List Char → List Char → Bool
  | [], pat => pat.isEmpty
  | c :: rest, pat => pat.isPrefixOf (c :: rest) || hasInfix rest pat

/-- Substring test on query text, as the web adapter `query.includes(pat)`. -/
def qIncludes (q pat : String) : Bool := hasInfix q.data pat.data

/-- Starts-with test on query text, as the web adapter `query.startsWith(pat)`. -/
def qStartsWith (q pat : String) : Bool := pat.data.isPrefixOf q.data

/-- JS `Math.max` over a nonempty list realised as a left fold. -/
def maxOf : List Int → Int
  | [] => 0
  | x :: xs => xs.foldl max x

/-- Id generation of the web adapter inserts:
`length > 0 ? Math.max(...ids) + 1 : 1`. -/
def nextId (ids : List Int) : Int :=
  if ids.isEmpty then 1 else maxOf ids + 1

/-- Descending insertion by a string key, modelling the adapter sort by date
(comparator on getTime, dates compared lexicographically here). -/
def insertDescBy (key : α → String) (x : α) : List α → List α
  | [] => [x]
  | y :: ys => if strLtB (key y) (key x) then x :: y :: ys else y :: insertDescBy key x ys

/-- Descending sort by a string key (adapter ORDER BY ... DESC simulation). -/
def sortDescBy (key : α → String) : List α → List α
  | [] => []
  | x :: xs => insertDescBy key x (sortDescBy key xs)

/-- Updates the first element satisfying the predicate, as the JS pattern
`const x = list.find(pred); if (x) mutate(x)`. -/
def updateFirst (pred : α → Bool) (f : α → α) : List α → List α
  | [] => []
  | x :: xs => if pred x then f x :: xs else x :: updateFirst pred f xs

/-- The sub-update of web.ts runAsync for `UPDATE promocoes ... WHERE id = ?`
applied to the found row: either the expiration shape
(`SET status = \x27expirada\x27`), or the generic walk that consumes
parameters in the fixed order desconto, data_fim, status. -/
def applyUpdById (q : String) (ps : List Val) (p : PromocaoRow) : PromocaoRow :=
  if qIncludes q "SET status = \x27expirada\x27" then
    { p with status := "expirada", data_expiracao := (ps.getD 0 .null).asOptStr }
  else
    let st0 := (p, 0)
    let st1 := if qIncludes q "desconto = ?" then
        ({ st0.1 with desconto := (ps.getD st0.2 .null).asInt }, st0.2 + 1)
      else st0
    let st2 := if qIncludes q "data_fim = ?" then
        ({ st1.1 with data_fim := (ps.getD st1.2 .null).asStr }, st1.2 + 1)
      else st1
    if qIncludes q "status = ?" then
      { st2.1 with status := (ps.getD st2.2 .null).asStr }
    else st2.1

/-- Result of web.ts runAsync together with the updated storage state. -/
structure RunResult where
  st : DBState
  lastInsertRowId : Int
  changes : Int
deriving DecidableEq

/-- WebDatabase.getAllAsync of src/services/database/web.ts: dispatch over
substrings of the query text, in source order; unmatched queries return []. -/
def getAllAsync (s : DBState) (q : String) (ps : List Val) : List Row :=
  if qIncludes q "SELECT * FROM promocoes" then
    s.promocoes.map Row.prom
  else if qIncludes q "SELECT * FROM historico_promocoes" then
    s.historico_promocoes.map Row.hist
  else if qIncludes q "SELECT COUNT(*) as count FROM promocoes" then
    [Row.count s.promocoes.length]
  else if qIncludes q "SELECT COUNT(*) as count FROM promocoes WHERE status = \"ativa\"" then
    [Row.count (s.promocoes.filter (fun p => p.status == "ativa")).length]
  else if qIncludes q "SELECT COUNT(*) as count FROM promocoes WHERE status = \"expirada\"" then
    [Row.count (s.promocoes.filter (fun p => p.status == "expirada")).length]
  else if qIncludes q "SELECT COUNT(*) as count FROM historico_promocoes WHERE acao = \"excluída\"" then
    [Row.count (s.historico_promocoes.filter (fun h => h.acao == "excluída")).length]
  else if qIncludes q "WHERE data_fim < ? AND status = \x27ativa\x27" then
    (s.promocoes.filter (fun p => strLt p.data_fim (ps.getD 0 .null) && p.status == "ativa")).map Row.prom
  else if qIncludes q "WHERE id = ?" then
    (s.promocoes.filter (fun p => (ps.getD 0 .null).eqInt p.id)).map Row.prom
  else if qIncludes q "WHERE promocao_id = ? AND acao = \"expirada\"" then
    (s.historico_promocoes.filter
      (fun h => (ps.getD 0 .null).eqInt h.promocao_id && h.acao == "expirada")).map Row.hist
  else if qIncludes q "ORDER BY data_criacao DESC" then
    (sortDescBy PromocaoRow.data_criacao s.promocoes).map Row.prom
  else if qIncludes q "ORDER BY data_acao DESC" then
    (sortDescBy HistoricoRow.data_acao s.historico_promocoes).map Row.hist
  else []

/-- WebDatabase.getFirstAsync: head of getAllAsync, null when empty. -/
def getFirstAsync (s : DBState) (q : String) (ps : List Val) : Option Row :=
  (getAllAsync s q ps).head?

/-- WebDatabase.runAsync of src/services/database/web.ts: insert, update and
delete simulation over the stored lists; unmatched statements change nothing
and return zeros. -/
def runAsync (s : DBState) (q : String) (ps : List Val) : RunResult :=
  if qStartsWith q "INSERT INTO promocoes" then
    let newId := nextId (s.promocoes.map PromocaoRow.id)
    let novaPromocao : PromocaoRow :=
      { id := newId
        produto_id := (ps.getD 0 .null).asStr
        produto_nome := (ps.getD 1 .null).asStr
        desconto := (ps.getD 2 .null).asInt
        data_inicio := (ps.getD 3 .null).asStr
        data_fim := (ps.getD 4 .null).asStr
        data_criacao := (ps.getD 5 .null).asStr
        status := (ps.getD 6 .null).asStr
        data_expiracao := none }
    ⟨{ s with promocoes := s.promocoes ++ [novaPromocao] }, newId, 1⟩
  else if qStartsWith q "INSERT INTO historico_promocoes" then
    let newId := nextId (s.historico_promocoes.map HistoricoRow.id)
    let novoHistorico : HistoricoRow :=
      { id := newId
        promocao_id := (ps.getD 0 .null).asInt
        produto_nome := (ps.getD 1 .null).asStr
        desconto := (ps.getD 2 .null).asInt
        data_inicio := (ps.getD 3 .null).asStr
        data_fim := (ps.getD 4 .null).asStr
        acao := (ps.getD 5 .null).asStr
        data_acao := (ps.getD 6 .null).asStr }
    ⟨{ s with historico_promocoes := s.historico_promocoes ++ [novoHistorico] }, newId, 1⟩
  else if qStartsWith q "UPDATE promocoes" then
    if qIncludes q "WHERE id = ?" then
      let idv := ps.getD (ps.length - 1) .null
      let found := s.promocoes.any (fun p => idv.eqInt p.id)
      ⟨{ s with promocoes := updateFirst (fun p => idv.eqInt p.id) (applyUpdById q ps) s.promocoes },
        0, if found then 1 else 0⟩
    else if qIncludes q "WHERE data_fim < ? AND status = \x27ativa\x27" then
      let hoje := ps.getD 0 .null
      let cond := fun (p : PromocaoRow) => strLt p.data_fim hoje && p.status == "ativa"
      ⟨{ s with promocoes := s.promocoes.map (fun p =>
            if cond p then { p with status := "expirada", data_expiracao := hoje.asOptStr } else p) },
        0, ((s.promocoes.filter cond).length : Int)⟩
    else ⟨s, 0, 0⟩
  else if qStartsWith q "DELETE FROM promocoes" then
    let idv := ps.getD 0 .null
    let kept := s.promocoes.filter (fun p => !(idv.eqInt p.id))
    ⟨{ s with promocoes := kept }, 0, (s.promocoes.length : Int) - (kept.length : Int)⟩
  else ⟨s, 0, 0⟩

/-! Query texts of services/promocaoService.ts, transcribed with their
newlines; apostrophes are written as the escape \x27. -/

def insPromocaoQ : String :=
  "INSERT INTO promocoes \n       (produto_id, produto_nome, desconto, data_inicio, data_fim, data_criacao, status) \n       VALUES (?, ?, ?, ?, ?, ?, ?)"

def insHistoricoQ : String :=
  "INSERT INTO historico_promocoes \n       (promocao_id, produto_nome, desconto, data_inicio, data_fim, acao, data_acao) \n       VALUES (?, ?, ?, ?, ?, ?, ?)"

def todasPromocoesQ : String :=
  "SELECT \n        id,\n        produto_id as produtoId,\n        produto_nome as produtoNome,\n        desconto,\n        data_inicio as dataInicio,\n        data_fim as dataFim,\n        data_criacao as dataCriacao,\n        status,\n        data_expiracao as dataExpiracao\n       FROM promocoes ORDER BY data_criacao DESC"

def historicoCompletoQ : String :=
  "SELECT \n        id,\n        promocao_id as promocaoId,\n        produto_nome as produtoNome,\n        desconto,\n        data_inicio as dataInicio,\n        data_fim as dataFim,\n        acao,\n        data_acao as dataAcao\n       FROM historico_promocoes ORDER BY data_acao DESC"

def updateExpiradasQ : String :=
  "UPDATE promocoes SET status = \x27expirada\x27, data_expiracao = ? \n       WHERE data_fim < ? AND status = \x27ativa\x27"

def selExpiradasQ : String :=
  "SELECT \n        id,\n        produto_id as produtoId,\n        produto_nome as produtoNome,\n        desconto,\n        data_inicio as dataInicio,\n        data_fim as dataFim,\n        data_criacao as dataCriacao,\n        status,\n        data_expiracao as dataExpiracao\n       FROM promocoes WHERE data_expiracao = ? AND status = \"expirada\""

def histCheckQ : String :=
  "SELECT \n          id,\n          promocao_id as promocaoId,\n          produto_nome as produtoNome,\n          desconto,\n          data_inicio as dataInicio,\n          data_fim as dataFim,\n          acao,\n          data_acao as dataAcao\n         FROM historico_promocoes WHERE promocao_id = ? AND acao = \"expirada\""

def totalCountQ : String := "SELECT COUNT(*) as count FROM promocoes"

def ativasCountQ : String := "SELECT COUNT(*) as count FROM promocoes WHERE status = \"ativa\""

def expiradasCountQ : String := "SELECT COUNT(*) as count FROM promocoes WHERE status = \"expirada\""

def canceladasCountQ : String :=
  "SELECT COUNT(*) as count FROM historico_promocoes WHERE acao = \"excluída\""

def porStatusQ : String :=
  "SELECT \n        id,\n        produto_id as produtoId,\n        produto_nome as produtoNome,\n        desconto,\n        data_inicio as dataInicio,\n        data_fim as dataFim,\n        data_criacao as dataCriacao,\n        status,\n        data_expiracao as dataExpiracao\n       FROM promocoes WHERE status = ? ORDER BY data_criacao DESC"

def porIdQ : String :=
  "SELECT \n        id,\n        produto_id as produtoId,\n        produto_nome as produtoNome,\n        desconto,\n        data_inicio as dataInicio,\n        data_fim as dataFim,\n        data_criacao as dataCriacao,\n        status,\n        data_expiracao as dataExpiracao\n       FROM promocoes WHERE id = ?"

def deleteQ : String := "DELETE FROM promocoes WHERE id = ?"

/-! The promotion service, services/promocaoService.ts. -/

/-- Request payload of criarPromocao. -/
structure CriarPromocaoData where
  produtoId : String
  produtoNome : String
  desconto : Int
  dataInicio : String
  dataFim : String
  dataCriacao : String
deriving DecidableEq

/-- criarPromocao: initial status from `new Date(dataFim) > new Date()`
(the current instant is the parameter `agora`), insert of the row, then the
`criada` history entry under the generated id. Returns the new state and the
generated id. -/
def criarPromocao (agora : String) (s : DBState) (data : CriarPromocaoData) :
    DBState × Int :=
  let status := if strLtB agora data.dataFim then "ativa" else "expirada"
  let r1 := runAsync s insPromocaoQ
    [.str data.produtoId, .str data.produtoNome, .int data.desconto,
     .str data.dataInicio, .str data.dataFim, .str data.dataCriacao, .str status]
  let r2 := runAsync r1.st insHistoricoQ
    [.int r1.lastInsertRowId, .str data.produtoNome, .int data.desconto,
     .str data.dataInicio, .str data.dataFim, .str "criada", .str data.dataCriacao]
  (r2.st, r1.lastInsertRowId)

/-- buscarPromocaoPorId: first row of the id query, cast to a promotion. -/
def buscarPromocaoPorId (s : DBState) (id : Int) : Option PromocaoRow :=
  (getFirstAsync s porIdQ [.int id]).bind Row.asProm

/-- buscarTodasPromocoes (read only, no state change). -/
def buscarTodasPromocoes (s : DBState) : List Row :=
  getAllAsync s todasPromocoesQ []

/-- buscarHistoricoCompleto (read only, no state change). -/
def buscarHistoricoCompleto (s : DBState) : List Row :=
  getAllAsync s historicoCompletoQ []

/-- buscarPromocoesPorStatus (read only, no state change). -/
def buscarPromocoesPorStatus (s : DBState) (status : String) : List Row :=
  getAllAsync s porStatusQ [.str status]

/-- Field names of Partial of Promocao accepted by atualizarPromocao. -/
inductive UpdField where
  | id | produtoId | produtoNome | desconto | dataInicio | dataFim
  | dataCriacao | status | dataExpiracao
deriving DecidableEq

/-- The camposSnakeCase mapping of atualizarPromocao, with the
`camposSnakeCase[campo] || campo` fallback for unmapped names. -/
def colName : UpdField → String
  | .produtoId => "produto_id"
  | .produtoNome => "produto_nome"
  | .dataInicio => "data_inicio"
  | .dataFim => "data_fim"
  | .dataCriacao => "data_criacao"
  | .dataExpiracao => "data_expiracao"
  | .desconto => "desconto"
  | .status => "status"
  | .id => "id"

/-- JS `Array.prototype.join` with separator comma-space. -/
def joinComma : List String → String
  | [] => ""
  | [x] => x
  | x :: xs => x ++ ", " ++ joinComma xs

/-- The dynamic UPDATE statement built by atualizarPromocao. -/
def mkUpdateQuery (campos : List UpdField) : String :=
  "UPDATE promocoes SET " ++ joinComma (campos.map (fun c => colName c ++ " = ?"))
    ++ " WHERE id = ?"

/-- JS property read `updates.f` on the updates object, realised on the
ordered key-value list. -/
def getField (k : UpdField) : List (UpdField × Val) → Option Val
  | [] => none
  | (k₁, v) :: rest => if k₁ = k then some v else getField k rest

/-- The tail of atualizarPromocao once the discount was updated: re-read of
the promotion and, when found, the `atualizada` history entry (the re-read
happens on the post-UPDATE state). -/
def registrarAtualizacao (hoje : String) (s1 : DBState) (id : Int) (desc : Val) :
    DBState :=
  match buscarPromocaoPorId s1 id with
  | none => s1
  | some promocao =>
    (runAsync s1 insHistoricoQ
      [.int id, promocao.produtoNome, desc, promocao.dataInicio,
       promocao.dataFim, .str "atualizada", .str hoje]).st

/-- atualizarPromocao: no-op on an empty update set; otherwise runs the
dynamic UPDATE, and when the update set includes desconto re-reads the
promotion and appends an `atualizada` history entry dated `hoje` (the
current date at the moment of the action). -/
def atualizarPromocao (hoje : String) (s : DBState) (id : Int)
    (updates : List (UpdField × Val)) : DBState :=
  let campos := updates.map Prod.fst
  let valores := updates.map Prod.snd
  if campos.length = 0 then s
  else
    let r1 := runAsync s (mkUpdateQuery campos) (valores ++ [.int id])
    match getField UpdField.desconto updates with
    | none => r1.st
    | some desc => registrarAtualizacao hoje r1.st id desc

/-- excluirPromocao: when the id is found, first the `excluída` history
entry, then the DELETE; when not found, only the (vacuous) DELETE. -/
def excluirPromocao (hoje : String) (s : DBState) (id : Int) : DBState :=
  let afterHist :=
    match buscarPromocaoPorId s id with
    | some promocao =>
      (runAsync s insHistoricoQ
        [.int id, promocao.produtoNome, .int promocao.desconto,
         promocao.dataInicio, promocao.dataFim, .str "excluída", .str hoje]).st
    | none => s
  (runAsync afterHist deleteQ [.int id]).st

/-- atualizarStatusPromocoes: the expiration sweep. Bulk UPDATE of the
active promotions past their end date, re-read of the freshly expired rows,
and for each one an `expirada` history entry guarded by an existence check. -/
def atualizarStatusPromocoes (hoje : String) (s : DBState) : DBState :=
  let r1 := runAsync s updateExpiradasQ [.str hoje, .str hoje]
  let promocoesExpiradas := (getAllAsync r1.st selExpiradasQ [.str hoje]).filterMap Row.asProm
  promocoesExpiradas.foldl (fun st promocao =>
    match getFirstAsync st histCheckQ [.int promocao.id] with
    | some _ => st
    | none =>
      (runAsync st insHistoricoQ
        [.int promocao.id, promocao.produtoNome, .int promocao.desconto,
         promocao.dataInicio, promocao.dataFim, .str "expirada", .str hoje]).st) r1.st

/-- Summary record of obterEstatisticasPromocoes. -/
structure EstatisticasPromocoes where
  total : Nat
  ativas : Nat
  expiradas : Nat
  canceladas : Nat
deriving DecidableEq

/-- JS `row?.count || 0` on an optional result row. -/
def rowCountD : Option Row → Nat
  | some (.count n) => n
  | _ => 0

/-- obterEstatisticasPromocoes: four independent count queries combined. -/
def obterEstatisticasPromocoes (s : DBState) : EstatisticasPromocoes :=
  let total := getFirstAsync s totalCountQ []
  let ativas := getFirstAsync s ativasCountQ []
  let expiradas := getFirstAsync s expiradasCountQ []
  let canceladas := getFirstAsync s canceladasCountQ []
  ⟨rowCountD total, rowCountD ativas, rowCountD expiradas, rowCountD canceladas⟩

/-- Number of history entries with action `expirada` for a given promotion id. -/
def countExpirada (id : Int) (l : List HistoricoRow) : Nat :=
  (l.filter (fun h => h.promocao_id == id && h.acao == "expirada")).length

/-- The query substring patterns recognised by WebDatabase.getAllAsync, in
source order. -/
def recognizedGet (q : String) : Bool :=
  qIncludes q "SELECT * FROM promocoes" ||
  qIncludes q "SELECT * FROM historico_promocoes" ||
  qIncludes q "SELECT COUNT(*) as count FROM promocoes" ||
  qIncludes q "SELECT COUNT(*) as count FROM promocoes WHERE status = \"ativa\"" ||
  qIncludes q "SELECT COUNT(*) as count FROM promocoes WHERE status = \"expirada\"" ||
  qIncludes q "SELECT COUNT(*) as count FROM historico_promocoes WHERE acao = \"excluída\"" ||
  qIncludes q "WHERE data_fim < ? AND status = \x27ativa\x27" ||
  qIncludes q "WHERE id = ?" ||
  qIncludes q "WHERE promocao_id = ? AND acao = \"expirada\"" ||
  qIncludes q "ORDER BY data_criacao DESC" ||
  qIncludes q "ORDER BY data_acao DESC"

/-- The statement prefixes recognised by WebDatabase.runAsync, in source
order. -/
def recognizedRun (q : String) : Bool :=
  qStartsWith q "INSERT INTO promocoes" ||
  qStartsWith q "INSERT INTO historico_promocoes" ||
  qStartsWith q "UPDATE promocoes" ||
  qStartsWith q "DELETE FROM promocoes"

/-! Concrete fixtures used to evaluate the operations at specific inputs. -/

/-- Fixture: a stored promotion with status `ativa`. -/
def exAtiva : PromocaoRow :=
  ⟨1, "p1", "Arroz", 10, "2024-01-01", "2024-06-01", "2024-01-01", "ativa", none⟩

/-- Fixture: a stored promotion with status `expirada`. -/
def exExpirada : PromocaoRow :=
  ⟨2, "p2", "Feijao", 20, "2024-01-01", "2024-02-01", "2024-01-02", "expirada", none⟩

/-- Fixture: one active and one expired promotion, empty history. -/
def exState : DBState := ⟨[exAtiva, exExpirada], []⟩

/-- Fixture: one active promotion whose end date has passed. -/
def exSweepState : DBState :=
  ⟨[⟨1, "p1", "Arroz", 10, "2023-01-01", "2024-01-01", "2023-01-01", "ativa", none⟩], []⟩

/-- Fixture: a history holding one `expirada` entry for promotion 1. -/
def exStateC2 : DBState :=
  ⟨[], [⟨1, 1, "Arroz", 10, "2024-01-01", "2024-06-01", "expirada", "2024-07-01"⟩]⟩

/-! Helper lemmas about the embedding. -/

/-- A prefix of a list is a prefix of any extension on the right. -/
theorem isPrefixOf_extend (p a b : List Char) (h : p.isPrefixOf a = true) :
    p.isPrefixOf (a ++ b) = true := by
  rw [List.isPrefixOf_iff_prefix] at h ⊢
  exact h.trans (List.prefix_append a b)

/-- Lists starting with distinct characters are not prefix-related. -/
theorem isPrefixOf_cons_ne (a b : Char) (as bs : List Char) (h : (a == b) = false) :
    (a :: as).isPrefixOf (b :: bs) = false := by
  simp [List.isPrefixOf_cons₂, h]

/-- A substring of a list is a substring of any left extension. -/
theorem hasInfix_extend (pat a b : List Char) (h : hasInfix b pat = true) :
    hasInfix (a ++ b) pat = true := by
  induction a with
  | nil => simpa using h
  | cons c cs ih => simp [hasInfix, List.cons_append, ih]

/-- Bound of the JS Math.max fold. -/
theorem foldl_max_bounds (l : List Int) :
    ∀ a : Int, a ≤ l.foldl max a ∧ ∀ x ∈ l, x ≤ l.foldl max a := by
  induction l with
  | nil => intro a; exact ⟨le_refl a, by simp⟩
  | cons b bs ih =>
    intro a
    have hfold : (b :: bs).foldl max a = bs.foldl max (max a b) := rfl
    constructor
    · rw [hfold]; exact le_trans (le_max_left a b) (ih (max a b)).1
    · intro x hx
      rw [hfold]
      rcases List.mem_cons.mp hx with rfl | h
      · exact le_trans (le_max_right a x) (ih (max a x)).1
      · exact (ih (max a b)).2 x h

/-- Every id already stored is strictly below the freshly generated id. -/
theorem lt_nextId (ids : List Int) (x : Int) (hx : x ∈ ids) : x < nextId ids := by
  cases ids with
  | nil => cases hx
  | cons y ys =>
    have hne : (y :: ys).isEmpty = false := rfl
    have hmax : x ≤ maxOf (y :: ys) := by
      rcases List.mem_cons.mp hx with h | h
      · exact h ▸ (foldl_max_bounds ys y).1
      · exact (foldl_max_bounds ys y).2 x h
    simp only [nextId, hne, Bool.false_eq_true, if_false]
    omega

/-- The generic sub-update of runAsync never changes the row id. -/
theorem applyUpdById_id (q : String) (ps : List Val) (p : PromocaoRow) :
    (applyUpdById q ps p).id = p.id := by
  simp only [applyUpdById]
  split_ifs <;> rfl

/-- Updating the first matching element preserves the existence of a match,
when the update preserves the predicate. -/
theorem updateFirst_exists (pred : α → Bool) (f : α → α)
    (hf : ∀ x, pred (f x) = pred x) (l : List α) (h : ∃ x ∈ l, pred x = true) :
    ∃ y ∈ updateFirst pred f l, pred y = true := by
  induction l with
  | nil =>
    rcases h with ⟨x, hx, _⟩
    cases hx
  | cons a as ih =>
    rcases h with ⟨x, hx, hpx⟩
    rcases List.mem_cons.mp hx with rfl | hmem
    · refine ⟨f x, ?_, by rw [hf x]; exact hpx⟩
      simp [updateFirst, hpx]
    · by_cases hpa : pred a = true
      · exact ⟨f a, by simp [updateFirst, hpa], by rw [hf a]; exact hpa⟩
      · have := ih ⟨x, hmem, hpx⟩
        rcases this with ⟨y, hy, hpy⟩
        refine ⟨y, ?_, hpy⟩
        simp [updateFirst, hpa]
        exact Or.inr hy

/-- Filtering by a predicate after keeping only its complement gives nothing. -/
theorem filter_pred_not (pred : α → Bool) (l : List α) :
    (l.filter (fun a => !(pred a))).filter pred = [] := by
  induction l with
  | nil => rfl
  | cons a as ih => cases h : pred a <;> simp [List.filter, h, ih]

/-- The Bool lexicographic comparison agrees with the core list order
underlying the string order. -/
theorem lexLt_iff (as bs : List Char) : lexLt as bs = true ↔ List.lt as bs := by
  induction as generalizing bs with
  | nil =>
    cases bs with
    | nil => exact ⟨fun h => Bool.noConfusion h, fun h => nomatch h⟩
    | cons b bs => exact ⟨fun _ => List.lt.nil b bs, fun _ => rfl⟩
  | cons a as ih =>
    cases bs with
    | nil => exact ⟨fun h => Bool.noConfusion h, fun h => nomatch h⟩
    | cons b bs =>
      by_cases h1 : a < b
      · simp only [lexLt, if_pos h1]
        exact ⟨fun _ => List.lt.head as bs h1, fun _ => by trivial⟩
      · by_cases h2 : b < a
        · simp only [lexLt, if_neg h1, if_pos h2]
          constructor
          · intro h; exact Bool.noConfusion h
          · intro h
            cases h with
            | head _ _ h3 => exact absurd h3 h1
            | tail h3 h4 _ => exact absurd h2 h4
        · simp only [lexLt, if_neg h1, if_neg h2]
          rw [ih bs]
          constructor
          · intro h; exact List.lt.tail h1 h2 h
          · intro h
            cases h with
            | head _ _ h3 => exact absurd h3 h1
            | tail _ _ h3 => exact h3

/-- The Bool string comparison agrees with the standard string order. -/
theorem strLtB_iff (a b : String) : strLtB a b = true ↔ a < b := by
  simp only [strLtB]
  rw [lexLt_iff, List.lt_iff_lex_lt, String.lt_iff_toList_lt]
  exact Iff.rfl

/-- The final parameter of the dynamic UPDATE is the id appended last. -/
theorem getD_append_singleton (l : List Val) (x d : Val) :
    (l ++ [x]).getD l.length d = x := by
  induction l with
  | nil => rfl
  | cons a as ih =>
    simp only [List.cons_append, List.length_cons, List.getD_cons_succ]
    exact ih

/-- Reading the head through the promotion-row wrapping. -/
theorem headBind_mapProm (l : List PromocaoRow) :
    ((l.map Row.prom).head?).bind Row.asProm = l.head? := by
  cases l <;> rfl

/-! Dispatch lemmas: how the adapter resolves each fixed service query.
These are definitional, the substring tests on the concrete query texts
evaluate inside the kernel. -/

/-- INSERT INTO promocoes appends one row and returns the generated id. -/
theorem runAsync_insPromocaoQ (s : DBState) (ps : List Val) :
    runAsync s insPromocaoQ ps =
      ⟨{ s with promocoes := s.promocoes ++
          [⟨nextId (s.promocoes.map PromocaoRow.id), (ps.getD 0 .null).asStr,
            (ps.getD 1 .null).asStr, (ps.getD 2 .null).asInt, (ps.getD 3 .null).asStr,
            (ps.getD 4 .null).asStr, (ps.getD 5 .null).asStr, (ps.getD 6 .null).asStr,
            none⟩] },
        nextId (s.promocoes.map PromocaoRow.id), 1⟩ := rfl

/-- INSERT INTO historico_promocoes appends one row and returns the id. -/
theorem runAsync_insHistoricoQ (s : DBState) (ps : List Val) :
    runAsync s insHistoricoQ ps =
      ⟨{ s with historico_promocoes := s.historico_promocoes ++
          [⟨nextId (s.historico_promocoes.map HistoricoRow.id), (ps.getD 0 .null).asInt,
            (ps.getD 1 .null).asStr, (ps.getD 2 .null).asInt, (ps.getD 3 .null).asStr,
            (ps.getD 4 .null).asStr, (ps.getD 5 .null).asStr, (ps.getD 6 .null).asStr⟩] },
        nextId (s.historico_promocoes.map HistoricoRow.id), 1⟩ := rfl

/-- The bulk expiration UPDATE of the sweep. -/
theorem runAsync_updateExpiradasQ (s : DBState) (ps : List Val) :
    runAsync s updateExpiradasQ ps =
      ⟨{ s with promocoes := s.promocoes.map (fun p =>
          if strLt p.data_fim (ps.getD 0 .null) && p.status == "ativa" then
            { p with status := "expirada", data_expiracao := (ps.getD 0 .null).asOptStr }
          else p) },
        0, ((s.promocoes.filter
              (fun p => strLt p.data_fim (ps.getD 0 .null) && p.status == "ativa")).length : Int)⟩ :=
  rfl

/-- DELETE FROM promocoes keeps the rows with a different id. -/
theorem runAsync_deleteQ (s : DBState) (ps : List Val) :
    runAsync s deleteQ ps =
      ⟨{ s with promocoes := s.promocoes.filter (fun p => !((ps.getD 0 .null).eqInt p.id)) },
        0, (s.promocoes.length : Int) -
          ((s.promocoes.filter (fun p => !((ps.getD 0 .null).eqInt p.id))).length : Int)⟩ := rfl

/-- The re-read of freshly expired promotions matches none of the adapter
patterns and yields the empty list. -/
theorem getAll_selExpiradasQ (s : DBState) (ps : List Val) :
    getAllAsync s selExpiradasQ ps = [] := rfl

/-- The id lookup query resolves to the id filter. -/
theorem getAll_porIdQ (s : DBState) (ps : List Val) :
    getAllAsync s porIdQ ps =
      (s.promocoes.filter (fun p => (ps.getD 0 .null).eqInt p.id)).map Row.prom := rfl

/-- buscarPromocaoPorId returns the first stored row with the given id. -/
theorem buscarPromocaoPorId_eq (s : DBState) (id : Int) :
    buscarPromocaoPorId s id =
      (s.promocoes.filter (fun p => (Val.int id).eqInt p.id)).head? := by
  unfold buscarPromocaoPorId getFirstAsync
  rw [getAll_porIdQ]
  exact headBind_mapProm (s.promocoes.filter (fun p => (Val.int id).eqInt p.id))

/-! String facts about the dynamic UPDATE statement of atualizarPromocao. -/

theorem mkUpdateQuery_data (campos : List UpdField) :
    (mkUpdateQuery campos).data =
      "UPDATE promocoes SET ".data ++
        ((joinComma (campos.map (fun c => colName c ++ " = ?"))).data ++
          " WHERE id = ?".data) := by
  simp [mkUpdateQuery]

theorem qStartsWith_mkUpd_upd (campos : List UpdField) :
    qStartsWith (mkUpdateQuery campos) "UPDATE promocoes" = true := by
  unfold qStartsWith
  rw [mkUpdateQuery_data]
  exact isPrefixOf_extend _ _ _ (by rfl)

theorem qStartsWith_mkUpd_insProm (campos : List UpdField) :
    qStartsWith (mkUpdateQuery campos) "INSERT INTO promocoes" = false := by
  unfold qStartsWith
  rw [mkUpdateQuery_data]
  exact isPrefixOf_cons_ne _ _ _ _ (by decide)

theorem qStartsWith_mkUpd_insHist (campos : List UpdField) :
    qStartsWith (mkUpdateQuery campos) "INSERT INTO historico_promocoes" = false := by
  unfold qStartsWith
  rw [mkUpdateQuery_data]
  exact isPrefixOf_cons_ne _ _ _ _ (by decide)

theorem qIncludes_mkUpd_whereId (campos : List UpdField) :
    qIncludes (mkUpdateQuery campos) "WHERE id = ?" = true := by
  unfold qIncludes
  rw [mkUpdateQuery_data]
  apply hasInfix_extend
  apply hasInfix_extend
  rfl

/-- The dynamic UPDATE of atualizarPromocao lands in the update-by-id branch
of runAsync, whatever the update set. -/
theorem runAsync_mkUpdateQuery (campos : List UpdField) (s : DBState) (ps : List Val) :
    runAsync s (mkUpdateQuery campos) ps =
      ⟨{ s with promocoes :=
          (updateFirst (fun p => (ps.getD (ps.length - 1) Val.null).eqInt p.id)
            (applyUpdById (mkUpdateQuery campos) ps) s.promocoes) },
        0, if s.promocoes.any (fun p => (ps.getD (ps.length - 1) Val.null).eqInt p.id) then 1
          else 0⟩ := by
  have h1 : ¬(qStartsWith (mkUpdateQuery campos) "INSERT INTO promocoes" = true) := by
    simp [qStartsWith_mkUpd_insProm]
  have h2 : ¬(qStartsWith (mkUpdateQuery campos) "INSERT INTO historico_promocoes" = true) := by
    simp [qStartsWith_mkUpd_insHist]
  unfold runAsync
  rw [if_neg h1, if_neg h2, if_pos (qStartsWith_mkUpd_upd campos),
    if_pos (qIncludes_mkUpd_whereId campos)]

/-! Shape lemmas for the sweep. -/

/-- The sweep reduces to the bulk UPDATE: the re-read returns no rows, so
the history loop never runs. -/
theorem atualizarStatus_eq (hoje : String) (s : DBState) :
    atualizarStatusPromocoes hoje s =
      (runAsync s updateExpiradasQ [.str hoje, .str hoje]).st := by
  unfold atualizarStatusPromocoes
  simp only [getAll_selExpiradasQ, List.filterMap_nil, List.foldl_nil]

/-- The sweep never touches the history table on the web backend. -/
theorem atualizarStatus_historico (hoje : String) (s : DBState) :
    (atualizarStatusPromocoes hoje s).historico_promocoes = s.historico_promocoes := by
  rw [atualizarStatus_eq, runAsync_updateExpiradasQ]

/-- Absence of a key in the update object. -/
theorem getField_none_iff (k : UpdField) (l : List (UpdField × Val)) :
    getField k l = none ↔ k ∉ l.map Prod.fst := by
  induction l with
  | nil => simp [getField]
  | cons kv rest ih =>
    obtain ⟨k₁, v⟩ := kv
    by_cases h : k₁ = k
    · subst h
      simp [getField]
    · simp [getField, h, ih, Ne.symm h]

/-- Presence of a key in the update object yields a value. -/
theorem getField_mem (k : UpdField) (l : List (UpdField × Val))
    (h : k ∈ l.map Prod.fst) : ∃ v, getField k l = some v := by
  cases hg : getField k l with
  | some v => exact ⟨v, rfl⟩
  | none => exact absurd h ((getField_none_iff k l).mp hg)

/-- When a row with the id is stored, registrarAtualizacao appends exactly
one atualizada entry dated with the action date. -/
theorem registrar_found (hoje : String) (s1 : DBState) (id : Int) (desc : Val)
    (hex : ∃ p ∈ s1.promocoes, ((Val.int id).eqInt p.id) = true) :
    ∃ h : HistoricoRow,
      (registrarAtualizacao hoje s1 id desc).historico_promocoes
        = s1.historico_promocoes ++ [h]
      ∧ h.acao = "atualizada" ∧ h.data_acao = hoje ∧ h.promocao_id = id := by
  obtain ⟨p0, hp0, hpred0⟩ := hex
  have hfil : s1.promocoes.filter (fun p => (Val.int id).eqInt p.id) ≠ [] :=
    List.ne_nil_of_mem (List.mem_filter.mpr ⟨hp0, hpred0⟩)
  cases hhead : s1.promocoes.filter (fun p => (Val.int id).eqInt p.id) with
  | nil => exact absurd hhead hfil
  | cons x xs =>
    have hbusca : buscarPromocaoPorId s1 id = some x := by
      rw [buscarPromocaoPorId_eq, hhead]
      rfl
    unfold registrarAtualizacao
    rw [hbusca]
    simp only [runAsync_insHistoricoQ]
    exact ⟨_, rfl, rfl, rfl, rfl⟩

/-- registrarAtualizacao only ever appends to the history. -/
theorem registrar_extends (hoje : String) (s1 : DBState) (id : Int) (desc : Val) :
    ∃ t, (registrarAtualizacao hoje s1 id desc).historico_promocoes
        = s1.historico_promocoes ++ t := by
  unfold registrarAtualizacao
  cases hb : buscarPromocaoPorId s1 id with
  | none => exact ⟨[], by rw [List.append_nil]⟩
  | some p => exact ⟨_, rfl⟩

/-! Claim theorems. -/

/-- C1: refuted on the code (code bug). In WebDatabase.getAllAsync the
total-count pattern is tested before the per-status count patterns, and the
per-status count queries contain the total-count query as a substring, so
obterEstatisticasPromocoes returns the total row count for ativas and for
expiradas. On a state with one active and one expired promotion the code
returns ativas = 2 and expiradas = 2, while the true counts, claimed by the
specification, are 1 and 1. Total and canceladas are as claimed. -/
theorem claim1_estatisticas_counts :
    obterEstatisticasPromocoes exState = ⟨2, 2, 2, 0⟩
    ∧ (exState.promocoes.filter (fun p => p.status == "ativa")).length = 1
    ∧ (exState.promocoes.filter (fun p => p.status == "expirada")).length = 1 :=
  ⟨rfl, rfl, rfl⟩

/-- C3: refuted on the code (code bug). One sweep over an active promotion
past its end date flips the status to expirada and records the expiration
date, as claimed; but the claimed history entry is never appended, because
the re-read query of the sweep matches none of the web adapter substring
patterns and returns the empty list. -/
theorem claim3_sweep_no_history :
    (atualizarStatusPromocoes "2024-01-02" exSweepState).promocoes =
      [⟨1, "p1", "Arroz", 10, "2023-01-01", "2024-01-01", "2023-01-01", "expirada",
        some "2024-01-02"⟩]
    ∧ (atualizarStatusPromocoes "2024-01-02" exSweepState).historico_promocoes = []
    ∧ countExpirada 1
        (atualizarStatusPromocoes "2024-01-02" exSweepState).historico_promocoes = 0 :=
  ⟨rfl, rfl, rfl⟩

/-- C6: refuted on the code (code bug). The atualizada history entry carries
the current action date, but its product name, start date and end date are
the undefined camelCase reads off the snake_case row returned by the web
adapter (stored as empty strings in this embedding), not the pre-update
values Arroz, 2024-01-01 and 2024-06-01 held by the promotion. -/
theorem claim6_update_entry_fields :
    (atualizarPromocao "2024-03-05" exState 1
        [(UpdField.desconto, Val.int 30)]).historico_promocoes
      = [⟨1, 1, "", 30, "", "", "atualizada", "2024-03-05"⟩]
    ∧ exAtiva.produto_nome = "Arroz"
    ∧ exAtiva.data_inicio = "2024-01-01"
    ∧ exAtiva.data_fim = "2024-06-01" :=
  ⟨rfl, rfl, rfl, rfl⟩

/-- C2: confirmed. Two consecutive sweeps produce at most one expirada
history entry per promotion id, and the second sweep appends no expirada
entry for a promotion that already has one. On the web backend the sweep
in fact never appends any history entry at all (compare C3), so the counts
are preserved exactly. -/
theorem claim2_sweep_idempotent (hoje : String) (s : DBState) (id : Int) :
    countExpirada id
        (atualizarStatusPromocoes hoje (atualizarStatusPromocoes hoje s)).historico_promocoes
      ≤ countExpirada id s.historico_promocoes + 1
    ∧ (1 ≤ countExpirada id (atualizarStatusPromocoes hoje s).historico_promocoes →
        countExpirada id
            (atualizarStatusPromocoes hoje
              (atualizarStatusPromocoes hoje s)).historico_promocoes
          = countExpirada id (atualizarStatusPromocoes hoje s).historico_promocoes) := by
  rw [atualizarStatus_historico, atualizarStatus_historico]
  exact ⟨Nat.le_succ _, fun _ => rfl⟩

/-- Witness for C2 at a state that already holds an expirada entry. -/
theorem claim2_sweep_idempotent_witness :
    countExpirada 1
        (atualizarStatusPromocoes "2024-07-02"
          (atualizarStatusPromocoes "2024-07-02" exStateC2)).historico_promocoes
      = countExpirada 1
          (atualizarStatusPromocoes "2024-07-02" exStateC2).historico_promocoes
    ∧ countExpirada 1
        (atualizarStatusPromocoes "2024-07-02"
          (atualizarStatusPromocoes "2024-07-02" exStateC2)).historico_promocoes
      ≤ countExpirada 1 exStateC2.historico_promocoes + 1 :=
  ⟨(claim2_sweep_idempotent "2024-07-02" exStateC2 1).2 (by decide),
   (claim2_sweep_idempotent "2024-07-02" exStateC2 1).1⟩

/-- C4: confirmed. criarPromocao appends exactly one promotion row, returns
its generated id, and the initial status of that row is ativa precisely when
the requested end date is strictly in the future of the creation instant,
and expirada otherwise. -/
theorem claim4_criar_status (agora : String) (s : DBState) (data : CriarPromocaoData) :
    ∃ p : PromocaoRow,
      ((criarPromocao agora s data).1).promocoes = s.promocoes ++ [p]
      ∧ p.id = (criarPromocao agora s data).2
      ∧ (p.status = "ativa" ↔ agora < data.dataFim)
      ∧ (p.status = "expirada" ↔ ¬ agora < data.dataFim) := by
  simp only [criarPromocao, runAsync_insPromocaoQ, runAsync_insHistoricoQ,
    List.getD_cons_zero, List.getD_cons_succ, Val.asStr, Val.asInt]
  refine ⟨_, rfl, rfl, ?_, ?_⟩
  · split_ifs with h
    · exact ⟨fun _ => (strLtB_iff _ _).mp h, fun _ => rfl⟩
    · constructor
      · intro he; simp at he
      · intro hp; exact absurd ((strLtB_iff _ _).mpr hp) h
  · split_ifs with h
    · constructor
      · intro he; simp at he
      · intro hn; exact absurd ((strLtB_iff _ _).mp h) hn
    · exact ⟨fun _ => fun hp => h ((strLtB_iff _ _).mpr hp), fun _ => rfl⟩

/-- C7: confirmed. Deleting an existing id appends exactly one excluída
history entry for that id and removes every row with that id, so a
subsequent read by id returns nothing; deleting an absent id leaves the
state unchanged (and, the operations being total, raises no error). -/
theorem claim7_excluir (hoje : String) (s : DBState) (id : Int) :
    ((∃ p ∈ s.promocoes, p.id = id) →
      ∃ h, (excluirPromocao hoje s id).historico_promocoes
          = s.historico_promocoes ++ [h]
        ∧ h.acao = "excluída" ∧ h.promocao_id = id
        ∧ (excluirPromocao hoje s id).promocoes
            = s.promocoes.filter (fun p => !((Val.int id).eqInt p.id))
        ∧ buscarPromocaoPorId (excluirPromocao hoje s id) id = none)
    ∧ ((¬ ∃ p ∈ s.promocoes, p.id = id) → excluirPromocao hoje s id = s) := by
  constructor
  · intro hex
    have hpred : ∃ p ∈ s.promocoes, ((Val.int id).eqInt p.id) = true := by
      obtain ⟨p, hp, hid⟩ := hex
      exact ⟨p, hp, by simp [Val.eqInt, hid]⟩
    obtain ⟨p0, hp0, hpred0⟩ := hpred
    have hfil : s.promocoes.filter (fun p => (Val.int id).eqInt p.id) ≠ [] :=
      List.ne_nil_of_mem (List.mem_filter.mpr ⟨hp0, hpred0⟩)
    cases hhead : s.promocoes.filter (fun p => (Val.int id).eqInt p.id) with
    | nil => exact absurd hhead hfil
    | cons x xs =>
      have hbusca : buscarPromocaoPorId s id = some x := by
        rw [buscarPromocaoPorId_eq, hhead]
        rfl
      unfold excluirPromocao
      rw [hbusca]
      simp only [runAsync_insHistoricoQ, runAsync_deleteQ]
      refine ⟨_, rfl, rfl, rfl, rfl, ?_⟩
      rw [buscarPromocaoPorId_eq]
      show ((s.promocoes.filter (fun p => !((Val.int id).eqInt p.id))).filter
        (fun p => (Val.int id).eqInt p.id)).head? = none
      rw [filter_pred_not]
      rfl
  · intro hnex
    have hfil : s.promocoes.filter (fun p => (Val.int id).eqInt p.id) = [] := by
      rw [List.filter_eq_nil_iff]
      intro p hp hc
      exact hnex ⟨p, hp, (beq_iff_eq.mp hc).symm⟩
    have hbusca : buscarPromocaoPorId s id = none := by
      rw [buscarPromocaoPorId_eq, hfil]
      rfl
    unfold excluirPromocao
    rw [hbusca]
    simp only [runAsync_deleteQ]
    have hkeep : s.promocoes.filter (fun p => !((Val.int id).eqInt p.id)) = s.promocoes := by
      rw [List.filter_eq_self]
      intro p hp
      have hne : id ≠ p.id := fun he => hnex ⟨p, hp, he.symm⟩
      simp [Val.eqInt, hne]
    show DBState.mk (s.promocoes.filter (fun p => !((Val.int id).eqInt p.id)))
      s.historico_promocoes = s
    rw [hkeep]

/-- Witness for C7 at concrete inputs: deleting the stored id 1, and
deleting the absent id 99. -/
theorem claim7_excluir_witness :
    (∃ h, (excluirPromocao "2024-03-05" exState 1).historico_promocoes
        = exState.historico_promocoes ++ [h]
      ∧ h.acao = "excluída" ∧ h.promocao_id = 1
      ∧ (excluirPromocao "2024-03-05" exState 1).promocoes
          = exState.promocoes.filter (fun p => !((Val.int 1).eqInt p.id))
      ∧ buscarPromocaoPorId (excluirPromocao "2024-03-05" exState 1) 1 = none)
    ∧ excluirPromocao "2024-03-05" exState 99 = exState :=
  ⟨(claim7_excluir "2024-03-05" exState 1).1 (by decide),
   (claim7_excluir "2024-03-05" exState 99).2 (by decide)⟩

/-- C5: confirmed. An update whose field set does not include the discount
leaves the history untouched; an update that includes the discount on an
id that is stored appends exactly one atualizada entry, dated with the
action date and referencing the promotion id. -/
theorem claim5_update_history (hoje : String) (s : DBState) (id : Int)
    (updates : List (UpdField × Val)) :
    (UpdField.desconto ∉ updates.map Prod.fst →
      (atualizarPromocao hoje s id updates).historico_promocoes
        = s.historico_promocoes)
    ∧ (UpdField.desconto ∈ updates.map Prod.fst → (∃ p ∈ s.promocoes, p.id = id) →
      ∃ h : HistoricoRow,
        (atualizarPromocao hoje s id updates).historico_promocoes
          = s.historico_promocoes ++ [h]
        ∧ h.acao = "atualizada" ∧ h.data_acao = hoje ∧ h.promocao_id = id) := by
  constructor
  · intro hnot
    simp only [atualizarPromocao]
    by_cases hc : (updates.map Prod.fst).length = 0
    · rw [if_pos hc]
    · rw [if_neg hc]
      have hg : getField UpdField.desconto updates = none :=
        (getField_none_iff _ _).mpr hnot
      simp only [hg]
      rw [runAsync_mkUpdateQuery]
  · intro hmem hex
    obtain ⟨dv, hg⟩ := getField_mem UpdField.desconto updates hmem
    have hlen : ¬((updates.map Prod.fst).length = 0) := by
      intro h0
      rw [List.length_eq_zero] at h0
      rw [h0] at hmem
      cases hmem
    have hpred : ∃ p ∈ s.promocoes, ((Val.int id).eqInt p.id) = true := by
      obtain ⟨p, hp, hid⟩ := hex
      exact ⟨p, hp, by simp [Val.eqInt, hid]⟩
    have hps : (((updates.map Prod.snd) ++ [Val.int id]).getD
        (((updates.map Prod.snd) ++ [Val.int id]).length - 1) Val.null) = Val.int id := by
      have h1 : ((updates.map Prod.snd) ++ [Val.int id]).length - 1
          = (updates.map Prod.snd).length := by simp
      rw [h1]
      exact getD_append_singleton _ _ _
    have hex1 : ∃ p ∈ (runAsync s (mkUpdateQuery (updates.map Prod.fst))
        ((updates.map Prod.snd) ++ [Val.int id])).st.promocoes,
        ((Val.int id).eqInt p.id) = true := by
      rw [runAsync_mkUpdateQuery]
      simp only [hps]
      exact updateFirst_exists _ _ (fun x => by rw [applyUpdById_id]) s.promocoes hpred
    obtain ⟨h, hh1, hh2, hh3, hh4⟩ := registrar_found hoje _ id dv hex1
    refine ⟨h, ?_, hh2, hh3, hh4⟩
    simp only [atualizarPromocao]
    rw [if_neg hlen]
    simp only [hg]
    rw [hh1, runAsync_mkUpdateQuery]

/-- Witness for C5: updating only the start date leaves the history
unchanged, and updating the discount of the stored id 1 appends one
atualizada entry. -/
theorem claim5_update_history_witness :
    ((atualizarPromocao "2024-03-05" exState 1
        [(UpdField.dataInicio, Val.str "2024-02-02")]).historico_promocoes
      = exState.historico_promocoes)
    ∧ (∃ h : HistoricoRow,
        (atualizarPromocao "2024-03-05" exState 1
            [(UpdField.desconto, Val.int 30)]).historico_promocoes
          = exState.historico_promocoes ++ [h]
        ∧ h.acao = "atualizada" ∧ h.data_acao = "2024-03-05" ∧ h.promocao_id = 1) :=
  ⟨(claim5_update_history "2024-03-05" exState 1
      [(UpdField.dataInicio, Val.str "2024-02-02")]).1 (by decide),
   (claim5_update_history "2024-03-05" exState 1
      [(UpdField.desconto, Val.int 30)]).2 (by decide) (by decide)⟩

/-- C8: confirmed. Every mutating service operation extends the history by
appending at the end: the previously written entries stay, in place and
unmodified, as a prefix of the new history. The read operations take the
state as an argument and return rows without producing a new state, so they
preserve the history by construction. -/
theorem claim8_history_append_only (s : DBState) :
    (∀ agora data, ∃ t, ((criarPromocao agora s data).1).historico_promocoes
        = s.historico_promocoes ++ t)
    ∧ (∀ hoje id updates, ∃ t,
        (atualizarPromocao hoje s id updates).historico_promocoes
          = s.historico_promocoes ++ t)
    ∧ (∀ hoje id, ∃ t, (excluirPromocao hoje s id).historico_promocoes
        = s.historico_promocoes ++ t)
    ∧ (∀ hoje, ∃ t, (atualizarStatusPromocoes hoje s).historico_promocoes
        = s.historico_promocoes ++ t) := by
  refine ⟨?_, ?_, ?_, ?_⟩
  · intro agora data
    exact ⟨_, rfl⟩
  · intro hoje id updates
    by_cases hc : (updates.map Prod.fst).length = 0
    · refine ⟨[], ?_⟩
      simp only [atualizarPromocao]
      rw [if_pos hc, List.append_nil]
    · cases hg : getField UpdField.desconto updates with
      | none =>
        refine ⟨[], ?_⟩
        simp only [atualizarPromocao]
        rw [if_neg hc]
        simp only [hg]
        rw [runAsync_mkUpdateQuery, List.append_nil]
      | some dv =>
        obtain ⟨t, ht⟩ := registrar_extends hoje
          ((runAsync s (mkUpdateQuery (updates.map Prod.fst))
            ((updates.map Prod.snd) ++ [Val.int id])).st) id dv
        refine ⟨t, ?_⟩
        simp only [atualizarPromocao]
        rw [if_neg hc]
        simp only [hg]
        rw [ht, runAsync_mkUpdateQuery]
  · intro hoje id
    cases hb : buscarPromocaoPorId s id with
    | none =>
      refine ⟨[], ?_⟩
      unfold excluirPromocao
      rw [hb]
      simp only [runAsync_deleteQ]
      rw [List.append_nil]
    | some p =>
      refine ⟨[⟨nextId (s.historico_promocoes.map HistoricoRow.id), id, "",
        p.desconto, "", "", "excluída", hoje⟩], ?_⟩
      unfold excluirPromocao
      rw [hb]
      simp only [runAsync_insHistoricoQ, runAsync_deleteQ]
      rfl
  · intro hoje
    refine ⟨[], ?_⟩
    rw [atualizarStatus_historico, List.append_nil]

/-- C9: confirmed. On the web backend a query text that matches none of the
recognised substring patterns makes getAllAsync return the empty list, and a
statement matching none of the recognised prefixes makes runAsync return
lastInsertRowId 0 and changes 0 with the state unchanged. Both adapter
operations are total functions of the state (all exceptions are caught in
the source), so nothing is raised to the caller. -/
theorem claim9_unrecognized (s : DBState) (q : String) (ps : List Val) :
    (recognizedGet q = false → getAllAsync s q ps = [])
    ∧ (recognizedRun q = false → runAsync s q ps = ⟨s, 0, 0⟩) := by
  constructor
  · intro h
    simp only [recognizedGet, Bool.or_eq_false_iff] at h
    obtain ⟨⟨⟨⟨⟨⟨⟨⟨⟨⟨h1, h2⟩, h3⟩, h4⟩, h5⟩, h6⟩, h7⟩, h8⟩, h9⟩, h10⟩, h11⟩ := h
    simp only [getAllAsync, h1, h2, h3, h4, h5, h6, h7, h8, h9, h10, h11,
      Bool.false_eq_true, if_false]
  · intro h
    simp only [recognizedRun, Bool.or_eq_false_iff] at h
    obtain ⟨⟨⟨h1, h2⟩, h3⟩, h4⟩ := h
    simp only [runAsync, h1, h2, h3, h4, Bool.false_eq_true, if_false]

/-- Witness for C9: the query HELLO matches no pattern; the adapter returns
the empty list and the zero run result on the fixture state. -/
theorem claim9_unrecognized_witness :
    recognizedGet "HELLO" = false ∧ recognizedRun "HELLO" = false
    ∧ getAllAsync exState "HELLO" [] = []
    ∧ runAsync exState "HELLO" [] = ⟨exState, 0, 0⟩ :=
  ⟨by decide, by decide,
   (claim9_unrecognized exState "HELLO" []).1 (by decide),
   (claim9_unrecognized exState "HELLO" []).2 (by decide)⟩

/-- C10: confirmed. On the web backend each insert generates the identifier
one plus the maximum identifier stored in the target table, or 1 when that
table is empty; the generated identifier is therefore strictly greater
than, and in particular distinct from, every identifier present in the
table at insert time. -/
theorem claim10_insert_ids (s : DBState) (ps : List Val) :
    ((s.promocoes = [] → (runAsync s insPromocaoQ ps).lastInsertRowId = 1)
     ∧ (s.promocoes ≠ [] → (runAsync s insPromocaoQ ps).lastInsertRowId
          = maxOf (s.promocoes.map PromocaoRow.id) + 1)
     ∧ ∀ p ∈ s.promocoes, p.id < (runAsync s insPromocaoQ ps).lastInsertRowId
        ∧ p.id ≠ (runAsync s insPromocaoQ ps).lastInsertRowId)
    ∧ ((s.historico_promocoes = [] →
          (runAsync s insHistoricoQ ps).lastInsertRowId = 1)
     ∧ (s.historico_promocoes ≠ [] → (runAsync s insHistoricoQ ps).lastInsertRowId
          = maxOf (s.historico_promocoes.map HistoricoRow.id) + 1)
     ∧ ∀ h ∈ s.historico_promocoes,
        h.id < (runAsync s insHistoricoQ ps).lastInsertRowId
        ∧ h.id ≠ (runAsync s insHistoricoQ ps).lastInsertRowId) := by
  rw [runAsync_insPromocaoQ, runAsync_insHistoricoQ]
  refine ⟨⟨?_, ?_, ?_⟩, ⟨?_, ?_, ?_⟩⟩
  · intro h
    rw [h]
    rfl
  · intro h
    cases hl : s.promocoes with
    | nil => exact absurd hl h
    | cons a l => rfl
  · intro p hp
    have hlt := lt_nextId (s.promocoes.map PromocaoRow.id) p.id
      (List.mem_map_of_mem PromocaoRow.id hp)
    exact ⟨hlt, Int.ne_of_lt hlt⟩
  · intro h
    rw [h]
    rfl
  · intro h
    cases hl : s.historico_promocoes with
    | nil => exact absurd hl h
    | cons a l => rfl
  · intro h hp
    have hlt := lt_nextId (s.historico_promocoes.map HistoricoRow.id) h.id
      (List.mem_map_of_mem HistoricoRow.id hp)
    exact ⟨hlt, Int.ne_of_lt hlt⟩

/-- Witness for C10: empty tables generate the identifier 1; the fixture
state with ids 1 and 2 generates 3, strictly above the stored id 1. -/
theorem claim10_insert_ids_witness :
    (runAsync ⟨[], []⟩ insPromocaoQ []).lastInsertRowId = 1
    ∧ (runAsync exState insPromocaoQ []).lastInsertRowId
        = maxOf (exState.promocoes.map PromocaoRow.id) + 1
    ∧ (exAtiva.id < (runAsync exState insPromocaoQ []).lastInsertRowId
       ∧ exAtiva.id ≠ (runAsync exState insPromocaoQ []).lastInsertRowId)
    ∧ (runAsync ⟨[], []⟩ insHistoricoQ []).lastInsertRowId = 1 :=
  ⟨(claim10_insert_ids ⟨[], []⟩ []).1.1 rfl,
   (claim10_insert_ids exState []).1.2.1 (by decide),
   (claim10_insert_ids exState []).1.2.2 exAtiva (by decide),
   (claim10_insert_ids ⟨[], []⟩ []).2.1 rfl⟩

end Loja
